import Mathlib

/-!
# rinswind/auth : signed tokens gated by a session store

A shallow embedding of `tokens/tokens.go` (token issuance, session persistence,
validation, revocation) and of `gin/handler.go` (the bearer authentication
middleware), followed by theorems about them.

Modelling conventions.

* Instants (`time.Time`) are integers: nanoseconds since the Unix epoch.
  Durations (`time.Duration`) are integers of nanoseconds in the int64 range.
* The Redis client is explicit state passing over a keyed map.  Every client
  call takes a `Link` describing what the network did with that one call.
  An entry records the lifetime that the `SET` which wrote it asked the server
  for (none when the command carried no expiry); the lapse of that lifetime
  through the passage of time is not modelled.
* A token string is represented by its abstract syntax (`TokenString`): either a
  text that does not split and decode into the three segments, or the three
  decoded segments.  The MAC primitive is a capability (`Signer`).
* JSON numbers are integer literals; decoding a payload turns each number into
  the nearest float64 (`roundF64`), as `encoding/json` does for `interface{}`
  targets.
* The libraries the two files call (`time`, `strconv`, `regexp`,
  `encoding/base64`, the JWT library, the Redis client) are embedded from their
  documented behaviour, as far as the two files observe it.
-/

namespace Auth

/-! ## Numbers, time -/

/-- Bounds of a Go `int64`. -/
def minInt64 : Int := -(2 ^ 63)

/-- Largest Go `int64`. -/
def maxInt64 : Int := 2 ^ 63 - 1

/-- The value fits a Go `int64` (a `time.Duration`, or the `UnixNano` of an instant). -/
def isInt64 (x : Int) : Prop := minInt64 ≤ x ∧ x ≤ maxInt64

instance (x : Int) : Decidable (isInt64 x) := by unfold isInt64; infer_instance

/-- Nanoseconds in one second (`time.Second`). -/
def Second : Int := 1000000000

/-- Nanoseconds in one millisecond (`time.Millisecond`). -/
def Millisecond : Int := 1000000

/-- Go `time.Unix(sec, 0)`: the instant `sec` seconds after the epoch. -/
def timeUnix (sec : Int) : Int := sec * Second

/-- Go `Time.Unix()`: whole seconds since the epoch (rounded down). -/
def Unix (t : Int) : Int := t / Second

/-- Go `Time.Add(d)`. -/
def timeAdd (t d : Int) : Int := t + d

/-- Go `Time.Sub(u)`: the duration `t - u`, saturated to the int64 range of a
`time.Duration`. -/
def timeSub (t u : Int) : Int :=
  let d := t - u
  if d < minInt64 then minInt64 else if maxInt64 < d then maxInt64 else d

/-- Number of halvings needed to bring `m` below `2 ^ 53` (bounded by `fuel`). -/
def excessBits : Nat → Nat → Nat
  | 0, _ => 0
  | fuel + 1, m => if m < 2 ^ 53 then 0 else 1 + excessBits fuel (m / 2)

/-- The float64 nearest to the natural number `n` (round to nearest, ties to
even, 53 bits of significand); the result is again an integer.  Meant for
magnitudes within the finite range of a float64. -/
def roundF64Nat (n : Nat) : Nat :=
  let e := excessBits n n
  if e = 0 then n
  else
    let q := n / 2 ^ e
    let r := n % 2 ^ e
    let half := 2 ^ (e - 1)
    let q' := if half < r ∨ (r = half ∧ q % 2 = 1) then q + 1 else q
    q' * 2 ^ e

/-- The float64 nearest to the integer `i`. -/
def roundF64 : Int → Int
  | Int.ofNat n => Int.ofNat (roundF64Nat n)
  | Int.negSucc n => -(Int.ofNat (roundF64Nat (n + 1)))

/-! ## Claim sets -/

/-- A value in a claim map (`interface{}` restricted to what JSON payloads of
tokens carry). -/
inductive Value where
  | str (s : String)
  | num (n : Int)
  | bool (b : Bool)
  | null
  deriving DecidableEq, Repr

/-- Go `jwt.MapClaims` / `map[string]interface{}`: an association list, looked up
by key (the first binding of a key is the one the map holds). -/
abbrev MapClaims := List (String × Value)

/-- JSON decoding of one payload value into `interface{}`: numbers become float64. -/
def decodeValue : Value → Value
  | Value.num n => Value.num (roundF64 n)
  | v => v

/-- JSON decoding of a payload object into `jwt.MapClaims`. -/
def decodeClaims (payload : MapClaims) : MapClaims :=
  payload.map (fun kv => (kv.1, decodeValue kv.2))

/-! ## Errors -/

/-- The flags of a `jwt.ValidationError` that `Parser.ParseWithClaims` can raise
after the key lookup. -/
structure ValidationError where
  expired : Bool
  issuedAt : Bool
  notValidYet : Bool
  signatureInvalid : Bool
  deriving DecidableEq, Repr

/-- Go `ValidationError.valid()`: no flag is set. -/
def ValidationError.valid (v : ValidationError) : Bool :=
  !v.expired && !v.issuedAt && !v.notValidYet && !v.signatureInvalid

/-- Errors returned by the token operations. -/
inductive Error where
  /-- The token text does not split and decode into three segments. -/
  | malformed
  /-- The header has no string `alg`, or names an unregistered method. -/
  | unverifiable
  /-- The key function refused the method: "unexpected signing method". -/
  | unexpectedSigningMethod
  /-- Claims or signature validation failed. -/
  | validation (v : ValidationError)
  /-- The parsed token is not marked valid: "Token invalid". -/
  | tokenInvalid
  /-- The claim set has no string `access_uuid`: "No access_uuid claim in token". -/
  | noClaim
  /-- Go `redis.Nil`: the key does not exist. -/
  | redisNil
  /-- The store call itself failed (connection, timeout). -/
  | storeUnavailable
  deriving DecidableEq, Repr

deriving instance DecidableEq for Except

/-! ## The Redis client -/

/-- One session record as the store holds it. -/
structure Entry where
  value : String
  /-- The lifetime (nanoseconds, counted from the write) that the `SET` which
  wrote the entry gave it; `none` when the entry never expires. -/
  ttl : Option Int
  deriving DecidableEq, Repr

/-- The keyed map behind the Redis client. -/
abbrev Store := String → Option Entry

/-- What the network did with one client call. -/
inductive Link where
  /-- The command was executed and its reply received. -/
  | up
  /-- The command never reached the server. -/
  | down
  /-- The command was executed but its reply was lost. -/
  | replyLost
  deriving DecidableEq, Repr

/-- The store after a `SET key value` that gives the entry the lifetime `ttl`. -/
def Store.set (s : Store) (key value : String) (ttl : Option Int) : Store :=
  fun k => if k = key then some ⟨value, ttl⟩ else s k

/-- The store after `DEL key`. -/
def Store.del (s : Store) (key : String) : Store :=
  fun k => if k = key then none else s k

/-- The Redis client's `KeepTTL`: the expiration that asks to keep the lifetime
the key already has. -/
def KeepTTL : Int := -1

/-- The Redis client's `usePrecise(dur)`: the duration is below one second, or is
not a whole number of seconds. -/
def usePrecise (dur : Int) : Bool := decide (dur < Second) || decide (dur % Second ≠ 0)

/-- The Redis client's `formatMs(dur)`: whole milliseconds, one at least.  Used
on positive durations only, where Go's division rounds down. -/
def formatMs (dur : Int) : Int :=
  if 0 < dur ∧ dur < Millisecond then 1 else dur / Millisecond

/-- The Redis client's `formatSec(dur)`: whole seconds, one at least.  Used on
positive durations only, where Go's division rounds down. -/
def formatSec (dur : Int) : Int :=
  if 0 < dur ∧ dur < Second then 1 else dur / Second

/-- The lifetime that `Redis.Set(ctx, key, value, expiration)` gives the entry.
A positive expiration is sent as `PX` whole milliseconds, or as `EX` seconds when
it is a whole number of seconds; `KeepTTL` is sent as `KEEPTTL` and keeps the
lifetime of the entry already there; any other expiration sends no expiry at
all, and the entry never expires. -/
def grantedTTL (s : Store) (key : String) (expiration : Int) : Option Int :=
  if 0 < expiration then
    if usePrecise expiration then some (formatMs expiration * Millisecond)
    else some (formatSec expiration * Second)
  else if expiration = KeepTTL then (s key).bind Entry.ttl
  else none

/-- Go `Redis.Set(ctx, key, value, expiration).Err()` and the resulting store. -/
def Redis.Set (l : Link) (s : Store) (key value : String) (expiration : Int) :
    Option Error × Store :=
  match l with
  | Link.up => (none, s.set key value (grantedTTL s key expiration))
  | Link.down => (some Error.storeUnavailable, s)
  | Link.replyLost =>
    (some Error.storeUnavailable, s.set key value (grantedTTL s key expiration))

/-- Go `Redis.Get(ctx, key).Err()`: `redis.Nil` when the key is absent. -/
def Redis.Get (l : Link) (s : Store) (key : String) : Option Error :=
  match l with
  | Link.up =>
    match s key with
    | some _ => none
    | none => some Error.redisNil
  | _ => some Error.storeUnavailable

/-- Go `Redis.Del(ctx, key).Uint64()` and the resulting store.  The integer reply
of `DEL` is the number of keys that were removed. -/
def Redis.Del (l : Link) (s : Store) (key : String) : Except Error Nat × Store :=
  match l with
  | Link.up => (Except.ok (if (s key).isSome then 1 else 0), s.del key)
  | Link.down => (Except.error Error.storeUnavailable, s)
  | Link.replyLost => (Except.error Error.storeUnavailable, s.del key)

/-! ## The JWT library -/

/-- Hash functions of the registered signing methods. -/
inductive Hash where
  | sha256
  | sha384
  | sha512
  deriving DecidableEq, Repr

/-- The signing methods registered by the JWT library. -/
inductive SigningMethod where
  | hmac (h : Hash)
  | rsa (h : Hash)
  | rsaPSS (h : Hash)
  | ecdsa (h : Hash)
  | none
  deriving DecidableEq, Repr

/-- Go `jwt.SigningMethodHS256`. -/
def SigningMethodHS256 : SigningMethod := SigningMethod.hmac Hash.sha256

/-- Go `jwt.GetSigningMethod(alg)`. -/
def GetSigningMethod (alg : String) : Option SigningMethod :=
  if alg = "HS256" then some (SigningMethod.hmac Hash.sha256)
  else if alg = "HS384" then some (SigningMethod.hmac Hash.sha384)
  else if alg = "HS512" then some (SigningMethod.hmac Hash.sha512)
  else if alg = "RS256" then some (SigningMethod.rsa Hash.sha256)
  else if alg = "RS384" then some (SigningMethod.rsa Hash.sha384)
  else if alg = "RS512" then some (SigningMethod.rsa Hash.sha512)
  else if alg = "PS256" then some (SigningMethod.rsaPSS Hash.sha256)
  else if alg = "PS384" then some (SigningMethod.rsaPSS Hash.sha384)
  else if alg = "PS512" then some (SigningMethod.rsaPSS Hash.sha512)
  else if alg = "ES256" then some (SigningMethod.ecdsa Hash.sha256)
  else if alg = "ES384" then some (SigningMethod.ecdsa Hash.sha384)
  else if alg = "ES512" then some (SigningMethod.ecdsa Hash.sha512)
  else if alg = "none" then some SigningMethod.none
  else Option.none

/-- Go `SigningMethod.Alg()`. -/
def SigningMethod.Alg : SigningMethod → String
  | SigningMethod.hmac Hash.sha256 => "HS256"
  | SigningMethod.hmac Hash.sha384 => "HS384"
  | SigningMethod.hmac Hash.sha512 => "HS512"
  | SigningMethod.rsa Hash.sha256 => "RS256"
  | SigningMethod.rsa Hash.sha384 => "RS384"
  | SigningMethod.rsa Hash.sha512 => "RS512"
  | SigningMethod.rsaPSS Hash.sha256 => "PS256"
  | SigningMethod.rsaPSS Hash.sha384 => "PS384"
  | SigningMethod.rsaPSS Hash.sha512 => "PS512"
  | SigningMethod.ecdsa Hash.sha256 => "ES256"
  | SigningMethod.ecdsa Hash.sha384 => "ES384"
  | SigningMethod.ecdsa Hash.sha512 => "ES512"
  | SigningMethod.none => "none"

/-- The three decoded segments of a compact token. -/
structure JWS where
  /-- The `alg` entry of the header, when it is a string. -/
  alg : Option String
  /-- The payload object, numbers as written. -/
  payload : MapClaims
  /-- The signature bytes, when the third segment decodes. -/
  signature : Option (List Nat)
  deriving DecidableEq, Repr

/-- A token string, by what `Parser.ParseUnverified` makes of it. -/
inductive TokenString where
  /-- A text that is not three decodable segments. -/
  | malformed (text : String)
  /-- The text `header.payload.signature`. -/
  | compact (j : JWS)
  deriving DecidableEq, Repr

/-- The MAC primitive: the HMAC, under the given hash and key, of the signing
input (header and payload segments). -/
structure Signer where
  hmac : Hash → String → Option String × MapClaims → List Nat

/-- Go `Token.SignedString(key)` for a token built by `jwt.NewWithClaims`.  An
HMAC over a byte-slice key cannot fail, so the result is always `ok`. -/
def SignedString (S : Signer) (method : SigningMethod) (claims : MapClaims) (key : String) :
    Except Error TokenString :=
  match method with
  | SigningMethod.hmac h =>
    Except.ok (TokenString.compact
      { alg := some method.Alg, payload := claims,
        signature := some (S.hmac h key (some method.Alg, claims)) })
  | _ => Except.error Error.unverifiable

/-- Go `SigningMethodHMAC.Verify`: the signature segment decodes and equals the
HMAC of the signing input. -/
def hmacVerify (S : Signer) (h : Hash) (key : String) (j : JWS) : Bool :=
  match j.signature with
  | some sig => sig == S.hmac h key (j.alg, j.payload)
  | Option.none => false

/-- Go `verifyExp(exp, now, false)` applied to the `exp` claim
(`MapClaims.VerifyExpiresAt`): a claim that is absent, not a number, or zero
passes; otherwise `now <= exp`. -/
def VerifyExpiresAt (claims : MapClaims) (now : Int) : Bool :=
  match claims.lookup "exp" with
  | some (Value.num exp) => if exp = 0 then true else decide (now ≤ exp)
  | _ => true

/-- Go `MapClaims.VerifyIssuedAt(now, false)`. -/
def VerifyIssuedAt (claims : MapClaims) (now : Int) : Bool :=
  match claims.lookup "iat" with
  | some (Value.num iat) => if iat = 0 then true else decide (iat ≤ now)
  | _ => true

/-- Go `MapClaims.VerifyNotBefore(now, false)`. -/
def VerifyNotBefore (claims : MapClaims) (now : Int) : Bool :=
  match claims.lookup "nbf" with
  | some (Value.num nbf) => if nbf = 0 then true else decide (nbf ≤ now)
  | _ => true

/-- The flags raised by `MapClaims.Valid()` at the instant `now`. -/
def claimsValid (claims : MapClaims) (now : Int) : ValidationError :=
  { expired := !VerifyExpiresAt claims (Unix now),
    issuedAt := !VerifyIssuedAt claims (Unix now),
    notValidYet := !VerifyNotBefore claims (Unix now),
    signatureInvalid := false }

/-- A parsed token (`jwt.Token`). -/
structure Token where
  Method : SigningMethod
  Claims : MapClaims
  Valid : Bool
  deriving DecidableEq, Repr

/-- Go `SigningMethod.Verify` with a byte-slice key: only the HMAC methods accept
such a key. -/
def SigningMethod.Verify (S : Signer) (m : SigningMethod) (key : String) (j : JWS) : Bool :=
  match m with
  | SigningMethod.hmac h => hmacVerify S h key j
  | _ => false

/-- Go `jwt.Parse(encoded, keyFunc)` at the instant `now`: split and decode,
look the method up, ask `keyFunc` for the key, validate the claims, verify the
signature. -/
def Parse (S : Signer) (encoded : TokenString) (keyFunc : Token → Except Error String)
    (now : Int) : Except Error Token :=
  match encoded with
  | TokenString.malformed _ => Except.error Error.malformed
  | TokenString.compact j =>
    match j.alg with
    | Option.none => Except.error Error.unverifiable
    | some alg =>
      match GetSigningMethod alg with
      | Option.none => Except.error Error.unverifiable
      | some method =>
        let token : Token := { Method := method, Claims := decodeClaims j.payload, Valid := false }
        match keyFunc token with
        | Except.error e => Except.error e
        | Except.ok key =>
          let vErr := claimsValid token.Claims now
          let vErr :=
            if method.Verify S key j then vErr else { vErr with signatureInvalid := true }
          if vErr.valid then Except.ok { token with Valid := true }
          else Except.error (Error.validation vErr)

/-! ## tokens/tokens.go -/

/-- Go `TokenDetails`. -/
structure TokenDetails where
  userID : Nat
  AccessToken : TokenString
  AccessUUID : String
  AccessExpires : Int
  RefreshToken : TokenString
  RefreshUUID : String
  RefreshExpires : Int
  deriving DecidableEq, Repr

/-- Go `AuthReader` (the Redis client is the `Store` passed to each call). -/
structure AuthReader where
  ATSecret : String
  RTSecret : String
  deriving DecidableEq, Repr

/-- Go `AuthWriter` (the Redis client is the `Store` passed to each call). -/
structure AuthWriter where
  ATSecret : String
  ATExpiry : Int
  RTSecret : String
  RTExpiry : Int
  deriving DecidableEq, Repr

/-- One lower-case hexadecimal digit. -/
def hexDigit (d : Nat) : Char :=
  if d < 10 then Char.ofNat (48 + d) else Char.ofNat (87 + d)

/-- The lowest `width` hexadecimal digits of `n`, most significant first. -/
def hexField (width n : Nat) : List Char :=
  (List.range width).reverse.map (fun i => hexDigit (n / 16 ^ i % 16))

/-- Go `UUID.String()` of the 128-bit value `u`: the 8-4-4-4-12 rendering. -/
def UUID.String (u : Nat) : String :=
  String.mk (hexField 8 (u / 2 ^ 96 % 2 ^ 32) ++ '-' :: hexField 4 (u / 2 ^ 80 % 2 ^ 16)
    ++ '-' :: hexField 4 (u / 2 ^ 64 % 2 ^ 16) ++ '-' :: hexField 4 (u / 2 ^ 48 % 2 ^ 16)
    ++ '-' :: hexField 12 (u % 2 ^ 48))

/-- Go `strconv.FormatUint(n, 10)`. -/
def FormatUint (n : Nat) : String := Nat.repr n

/-- Go `AuthWriter.CreateToken`.  `nowA`, `nowR` are the two readings of
`time.Now()`, `uuidA`, `uuidR` the two values returned by `uuid.NewV4()`. -/
def CreateToken (S : Signer) (aw : AuthWriter) (nowA nowR : Int) (uuidA uuidR : Nat)
    (userID : Nat) : Except Error TokenDetails :=
  -- Creating Access Token
  let accessExpires := Unix (timeAdd nowA aw.ATExpiry)
  let accessUUID := UUID.String uuidA
  let atClaims : MapClaims :=
    [("access_uuid", Value.str accessUUID), ("user_id", Value.num userID),
     ("exp", Value.num accessExpires)]
  match SignedString S SigningMethodHS256 atClaims aw.ATSecret with
  | Except.error err => Except.error err
  | Except.ok accessToken =>
    -- Creating Refresh Token
    let refreshExpires := Unix (timeAdd nowR aw.RTExpiry)
    let refreshUUID := UUID.String uuidR
    let rtClaims : MapClaims :=
      [("refresh_uuid", Value.str refreshUUID), ("user_id", Value.num userID),
       ("exp", Value.num refreshExpires)]
    match SignedString S SigningMethodHS256 rtClaims aw.RTSecret with
    | Except.error err => Except.error err
    | Except.ok refreshToken =>
      Except.ok
        { userID := userID,
          AccessToken := accessToken, AccessUUID := accessUUID, AccessExpires := accessExpires,
          RefreshToken := refreshToken, RefreshUUID := refreshUUID,
          RefreshExpires := refreshExpires }

/-- Go `AuthWriter.CreateAuth`: the returned error and the store afterwards.
`l1`, `l2` are the fates of the first and of the second `SET`, `now` the reading
of `time.Now()`. -/
def CreateAuth (l1 l2 : Link) (s : Store) (now : Int) (td : TokenDetails) :
    Option Error × Store :=
  let at_ := timeUnix td.AccessExpires
  let rt := timeUnix td.RefreshExpires
  let userIDStr := FormatUint td.userID
  match Redis.Set l1 s td.AccessUUID userIDStr (timeSub at_ now) with
  | (some err, s1) => (some err, s1)
  | (Option.none, s1) =>
    match Redis.Set l2 s1 td.RefreshUUID userIDStr (timeSub rt now) with
    | (some err, s2) => (some err, s2)
    | (Option.none, s2) => (Option.none, s2)

/-- Go `AuthWriter.DeleteAuth`: the returned pair and the store afterwards. -/
def DeleteAuth (l : Link) (s : Store) (claims : MapClaims) : Except Error Nat × Store :=
  match claims.lookup "access_uuid" with
  | some (Value.str atUUID) =>
    match Redis.Del l s atUUID with
    | (Except.error err, s1) => (Except.error err, s1)
    | (Except.ok userID, s1) => (Except.ok userID, s1)
  | _ => (Except.error Error.noClaim, s)

/-- The key function that `decodeToken` hands to `jwt.Parse`. -/
def keyFunc (key : String) (token : Token) : Except Error String :=
  match token.Method with
  | SigningMethod.hmac _ => Except.ok key
  | _ => Except.error Error.unexpectedSigningMethod

/-- Go `decodeToken`. -/
def decodeToken (S : Signer) (encoded : TokenString) (key : String) (now : Int) :
    Except Error MapClaims :=
  match Parse S encoded (keyFunc key) now with
  | Except.error err => Except.error err
  | Except.ok token =>
    if !token.Valid then Except.error Error.tokenInvalid
    else Except.ok token.Claims

/-- Go `AuthReader.ReadAuth` at the instant `now`; `l` is the fate of the `GET`. -/
def ReadAuth (S : Signer) (ar : AuthReader) (l : Link) (s : Store) (now : Int)
    (tokenStr : TokenString) : Except Error MapClaims :=
  match decodeToken S tokenStr ar.ATSecret now with
  | Except.error err => Except.error err
  | Except.ok claims =>
    match claims.lookup "access_uuid" with
    | some (Value.str atUUID) =>
      match Redis.Get l s atUUID with
      | some err => Except.error err
      | Option.none => Except.ok claims
    | _ => Except.error Error.noClaim

/-! ## gin/handler.go -/

/-- The literal part of the pattern `Bearer (.+)`. -/
def bearerLit : List Char := ['B', 'e', 'a', 'r', 'e', 'r', ' ']

/-- A match of `Bearer (.+)` starting at the head of `s`: the text captured by
the group, the longest run of characters other than a line feed, which must not
be empty. -/
def matchHere (s : List Char) : Option (List Char) :=
  if bearerLit.isPrefixOf s then
    match (s.drop bearerLit.length).takeWhile (fun c => c != '\n') with
    | [] => none
    | c :: cs => some (c :: cs)
  else none

/-- The leftmost match of `Bearer (.+)` in `s`, as the slice of the whole match
followed by the capture; empty when nothing matches. -/
def findSubmatch : List Char → List String
  | [] => []
  | c :: cs =>
    match matchHere (c :: cs) with
    | some cap => [String.mk (bearerLit ++ cap), String.mk cap]
    | none => findSubmatch cs

/-- Go `authzSplit.FindStringSubmatch(s)` for `authzSplit = regexp.MustCompile("Bearer (.+)")`. -/
def authzSplit.FindStringSubmatch (s : String) : List String := findSubmatch s.toList

/-- The value of a character in the standard base64 alphabet. -/
def b64Value (c : Char) : Option Nat :=
  if 'A' ≤ c ∧ c ≤ 'Z' then some (c.toNat - 65)
  else if 'a' ≤ c ∧ c ≤ 'z' then some (c.toNat - 97 + 26)
  else if '0' ≤ c ∧ c ≤ '9' then some (c.toNat - 48 + 52)
  else if c = '+' then some 62
  else if c = '/' then some 63
  else none

/-- Decoding of the padded four-character groups. -/
def decodeQuanta : List Char → Option (List Nat)
  | [] => some []
  | a :: b :: c :: d :: rest =>
    match b64Value a, b64Value b with
    | some x, some y =>
      if c = '=' then
        if d = '=' ∧ rest = [] then some [x * 4 + y / 16] else none
      else
        match b64Value c with
        | none => none
        | some z =>
          if d = '=' then
            if rest = [] then some [x * 4 + y / 16, y % 16 * 16 + z / 4] else none
          else
            match b64Value d with
            | none => none
            | some w =>
              (decodeQuanta rest).map
                (fun t => (x * 4 + y / 16) :: (y % 16 * 16 + z / 4) :: (z % 4 * 64 + w) :: t)
    | _, _ => none
  | _ => none

/-- Go `base64.StdEncoding.DecodeString(s)`: carriage returns and line feeds are
skipped; `none` stands for the error. -/
def DecodeString (s : String) : Option (List Nat) :=
  decodeQuanta (s.toList.filter (fun c => c != '\r' && c != '\n'))

/-- Go `http.StatusUnauthorized`. -/
def StatusUnauthorized : Nat := 401

/-- What the middleware left in the `gin.Context`. -/
structure Context where
  /-- The status given to `AbortWithStatus`, if the request was aborted. -/
  aborted : Option Nat
  /-- The value set under `ContextKey`. -/
  claims : Option MapClaims
  /-- The credential bytes handed to `ReadAuth`, if it was called. -/
  presented : Option (List Nat)
  deriving DecidableEq, Repr

/-- The handler returned by Go `MakeHandler(ar)`, run on a request whose
`Authorization` header is `authzHeader`.  `asToken` reads the decoded credential
bytes as a token string; `l` is the fate of the store call made by `ReadAuth`. -/
def MakeHandler (S : Signer) (ar : AuthReader) (asToken : List Nat → TokenString)
    (l : Link) (s : Store) (now : Int) (authzHeader : String) : Context :=
  match authzSplit.FindStringSubmatch authzHeader with
  | [_, credential] =>
    match DecodeString credential with
    | none => { aborted := some StatusUnauthorized, claims := none, presented := none }
    | some token =>
      match ReadAuth S ar l s now (asToken token) with
      | Except.error _ =>
        { aborted := some StatusUnauthorized, claims := none, presented := some token }
      | Except.ok claims => { aborted := none, claims := some claims, presented := some token }
  | _ => { aborted := some StatusUnauthorized, claims := none, presented := none }

/-! ## A concrete signer and concrete data for closed statements -/

/-- A stand-in MAC: the hash tag, then the key, then the length of the payload. -/
def demoSigner : Signer where
  hmac h key input :=
    (match h with
      | Hash.sha256 => 256
      | Hash.sha384 => 384
      | Hash.sha512 => 512) :: input.2.length :: key.toList.map Char.toNat

/-- A reader and a writer sharing their secrets. -/
def demoReader : AuthReader := { ATSecret := "at-secret", RTSecret := "rt-secret" }

/-- The empty store. -/
def emptyStore : Store := fun _ => Option.none

/-- A session identifier used in closed statements. -/
def demoSession : String := "3f2c8a10-7d4e-4b1a-9c55-0a6e1d2b7f90"

/-- An access claim set for principal 42 under `demoSession`, expiring at second `exp`. -/
def demoClaims (exp : Int) : MapClaims :=
  [("access_uuid", Value.str demoSession), ("user_id", Value.num 42), ("exp", Value.num exp)]

/-- A store holding the session record of principal 42 under `demoSession`. -/
def demoStore : Store := emptyStore.set demoSession (FormatUint 42) (some (900 * Second))

/-- A token with header `alg`, MAC'd by `demoSigner` with hash `h` under `key`. -/
def demoToken (alg : String) (h : Hash) (key : String) (payload : MapClaims) : TokenString :=
  TokenString.compact
    { alg := some alg, payload := payload,
      signature := some (demoSigner.hmac h key (some alg, payload)) }

/-- A token pair record whose two session identifiers coincide. -/
def collidingDetails : TokenDetails :=
  { userID := 0,
    AccessToken := TokenString.malformed "", AccessUUID := "k", AccessExpires := 100,
    RefreshToken := TokenString.malformed "", RefreshUUID := "k", RefreshExpires := 200 }

/-- A token pair record whose access expiry lies beyond the reach of a duration. -/
def farDetails : TokenDetails :=
  { userID := 0,
    AccessToken := TokenString.malformed "", AccessUUID := "a", AccessExpires := 2 ^ 62,
    RefreshToken := TokenString.malformed "", RefreshUUID := "r", RefreshExpires := 200 }

/-- A token pair record for principal 42 with access expiry 900 and refresh expiry 86400. -/
def demoDetails : TokenDetails :=
  { userID := 42,
    AccessToken := TokenString.malformed "", AccessUUID := demoSession, AccessExpires := 900,
    RefreshToken := TokenString.malformed "", RefreshUUID := "r-session",
    RefreshExpires := 86400 }

/-- A writer sharing its secrets with `demoReader`: 15 minutes of access, one
day of refresh. -/
def demoWriter : AuthWriter :=
  { ATSecret := "at-secret", ATExpiry := 900 * Second,
    RTSecret := "rt-secret", RTExpiry := 86400 * Second }

/-- A reading of credential bytes as token strings: the bytes of `tok` stand for
the access token of principal 42 expiring at second 900, anything else is
malformed. -/
def demoText (bytes : List Nat) : TokenString :=
  if bytes = [116, 111, 107] then demoToken "HS256" Hash.sha256 "at-secret" (demoClaims 900)
  else TokenString.malformed ""

/-- The record that `CreateToken` returns for principal `2 ^ 53 + 1` at second
100 with `demoWriter` and the UUID values 1 and 2. -/
def bigDetails : TokenDetails :=
  { userID := 9007199254740993,
    AccessToken := demoToken "HS256" Hash.sha256 "at-secret"
      [("access_uuid", Value.str "00000000-0000-0000-0000-000000000001"),
       ("user_id", Value.num 9007199254740993), ("exp", Value.num 1000)],
    AccessUUID := "00000000-0000-0000-0000-000000000001",
    AccessExpires := 1000,
    RefreshToken := demoToken "HS256" Hash.sha256 "rt-secret"
      [("refresh_uuid", Value.str "00000000-0000-0000-0000-000000000002"),
       ("user_id", Value.num 9007199254740993), ("exp", Value.num 86500)],
    RefreshUUID := "00000000-0000-0000-0000-000000000002",
    RefreshExpires := 86500 }

/-! ## Basic facts about the store and the clock -/

theorem Store.set_same (s : Store) (key value : String) (d : Option Int) :
    s.set key value d key = some ⟨value, d⟩ := by
  simp [Store.set]

theorem Store.set_other (s : Store) (key value : String) (d : Option Int) (k : String)
    (h : k ≠ key) : s.set key value d k = s k := by
  simp [Store.set, h]

theorem Store.del_same (s : Store) (key : String) : s.del key key = none := by
  simp [Store.del]

theorem Store.del_other (s : Store) (key k : String) (h : k ≠ key) : s.del key k = s k := by
  simp [Store.del, h]

theorem timeSub_exact (t u : Int) (h : isInt64 (t - u)) : timeSub t u = t - u := by
  unfold isInt64 at h
  unfold timeSub
  simp only
  rw [if_neg (by omega), if_neg (by omega)]

theorem Redis.Set_ok_iff (l : Link) (s : Store) (key value : String) (d : Int) :
    (Redis.Set l s key value d).1 = none ↔ l = Link.up := by
  cases l <;> simp [Redis.Set]

theorem CreateAuth_ok_iff (l1 l2 : Link) (s : Store) (now : Int) (td : TokenDetails) :
    (CreateAuth l1 l2 s now td).1 = none ↔ l1 = Link.up ∧ l2 = Link.up := by
  cases l1 <;> cases l2 <;> simp [CreateAuth, Redis.Set]

theorem CreateAuth_up_up (s : Store) (now : Int) (td : TokenDetails) :
    (CreateAuth Link.up Link.up s now td).2 =
      (s.set td.AccessUUID (FormatUint td.userID)
          (grantedTTL s td.AccessUUID (timeSub (timeUnix td.AccessExpires) now))).set
        td.RefreshUUID (FormatUint td.userID)
        (grantedTTL
          (s.set td.AccessUUID (FormatUint td.userID)
            (grantedTTL s td.AccessUUID (timeSub (timeUnix td.AccessExpires) now)))
          td.RefreshUUID (timeSub (timeUnix td.RefreshExpires) now)) := by
  simp [CreateAuth, Redis.Set]

theorem grantedTTL_pos (s : Store) (key : String) (d : Int) (hpos : 0 < d) :
    grantedTTL s key d = some (max Millisecond (d / Millisecond * Millisecond)) := by
  unfold grantedTTL
  rw [if_pos hpos]
  by_cases hp : usePrecise d = true
  · rw [if_pos hp]
    unfold formatMs
    by_cases hms : d < Millisecond
    · rw [if_pos ⟨hpos, hms⟩]
      congr 1
      unfold Millisecond at hms ⊢
      omega
    · rw [if_neg (fun h => hms h.2)]
      congr 1
      unfold Millisecond at hms ⊢
      omega
  · rw [if_neg hp]
    have hsec : ¬ d < Second ∧ d % Second = 0 := by
      simpa [usePrecise] using hp
    unfold formatSec
    rw [if_neg (fun h => hsec.1 h.2)]
    congr 1
    obtain ⟨h1, h2⟩ := hsec
    unfold Second at h1 h2 ⊢
    unfold Millisecond
    omega

theorem lifetime_within_expiry (now expiry : Int) (hms : Millisecond ≤ expiry - now) :
    now + max Millisecond ((expiry - now) / Millisecond * Millisecond) ≤ expiry ∧
    expiry - Millisecond < now + max Millisecond ((expiry - now) / Millisecond * Millisecond) := by
  unfold Millisecond at hms ⊢
  omega

theorem lifetime_exact (now expiry : Int) (hpos : 0 < expiry - now)
    (hwhole : (expiry - now) % Millisecond = 0) :
    now + max Millisecond ((expiry - now) / Millisecond * Millisecond) = expiry := by
  unfold Millisecond at hwhole ⊢
  omega

/-! ## Revocation returns the reply of `DEL` -/

theorem DeleteAuth_present (s : Store) (claims : MapClaims) (u : String) (entry : Entry)
    (hu : claims.lookup "access_uuid" = some (Value.str u)) (hs : s u = some entry) :
    DeleteAuth Link.up s claims = (Except.ok 1, s.del u) := by
  simp [DeleteAuth, hu, Redis.Del, hs]

theorem DeleteAuth_absent (s : Store) (claims : MapClaims) (u : String)
    (hu : claims.lookup "access_uuid" = some (Value.str u)) (hs : s u = none) :
    DeleteAuth Link.up s claims = (Except.ok 0, s.del u) := by
  simp [DeleteAuth, hu, Redis.Del, hs]

/-- C1 (the code departs from the claim): with the session record of principal 42
in the store, `DeleteAuth` on a claim set naming that session removes the key
and returns 1, the number of keys removed, not the principal 42. -/
theorem C1_DeleteAuth_returns_removed_count :
    (DeleteAuth Link.up demoStore (demoClaims 900)).1 = Except.ok 1 ∧
    demoStore demoSession = some ⟨"42", some (900 * Second)⟩ ∧
    (DeleteAuth Link.up demoStore (demoClaims 900)).2 demoSession = none := by
  decide

/-- C2 (the code departs from the claim): revoking the same claim set twice
yields `ok 1` and then `ok 0`; the second call, whose key is absent, is a
successful result and not an error. -/
theorem C2_second_DeleteAuth_succeeds :
    (DeleteAuth Link.up demoStore (demoClaims 900)).1 = Except.ok 1 ∧
    (DeleteAuth Link.up demoStore (demoClaims 900)).2 demoSession = none ∧
    (DeleteAuth Link.up (DeleteAuth Link.up demoStore (demoClaims 900)).2 (demoClaims 900)).1
      = Except.ok 0 := by
  decide

/-! ## Persisting the session records -/

/-- C8 (counterexample): written at second 1000, the access record of a token
whose signed expiry is second 900 gets no expiry at all and so outlives the
signed expiry; written one nanosecond after the epoch, it gets 899999 ms, not
`AccessExpires - now`; when the two session identifiers coincide the store ends
with one record, carrying the refresh lifetime under the access key; and an
access expiry more than a duration away from now gets the saturated duration in
whole milliseconds. -/
theorem C8_counterexample :
    ((CreateAuth Link.up Link.up emptyStore (1000 * Second) demoDetails).1 = none ∧
      (CreateAuth Link.up Link.up emptyStore (1000 * Second) demoDetails).2
        demoDetails.AccessUUID = some ⟨"42", none⟩ ∧
      timeUnix demoDetails.AccessExpires - 1000 * Second = -(100 * Second)) ∧
    ((CreateAuth Link.up Link.up emptyStore 1 demoDetails).1 = none ∧
      (CreateAuth Link.up Link.up emptyStore 1 demoDetails).2 demoDetails.AccessUUID
        = some ⟨"42", some (899999 * Millisecond)⟩ ∧
      timeUnix demoDetails.AccessExpires - 1 = 899999 * Millisecond + 999999) ∧
    ((CreateAuth Link.up Link.up emptyStore 0 collidingDetails).1 = none ∧
      (CreateAuth Link.up Link.up emptyStore 0 collidingDetails).2 collidingDetails.AccessUUID
        = some ⟨"0", some (200 * Second)⟩ ∧
      timeUnix collidingDetails.AccessExpires - 0 = 100 * Second) ∧
    ((CreateAuth Link.up Link.up emptyStore 0 farDetails).1 = none ∧
      (CreateAuth Link.up Link.up emptyStore 0 farDetails).2 farDetails.AccessUUID
        = some ⟨"0", some (9223372036854 * Millisecond)⟩ ∧
      maxInt64 < timeUnix farDetails.AccessExpires - 0) := by
  decide

/-- C8 (amended): for a record with distinct session identifiers, written at a
`now` strictly before both signed expiries and within a duration of them, a
`CreateAuth` that returns no error leaves the access key and the refresh key
each holding the decimal rendering of the principal, with lifetime
`expiry - now` rounded down to whole milliseconds, one millisecond at least, and
leaves every other key as it was.  When `expiry - now` is at least one
millisecond, `now` plus the lifetime does not exceed the signed expiry and is
less than a millisecond short of it; when `expiry - now` is a whole number of
milliseconds, `now` plus the lifetime is the signed expiry. -/
theorem C8_CreateAuth_writes_two_records (l1 l2 : Link) (s : Store) (now : Int)
    (td : TokenDetails)
    (hkeys : td.AccessUUID ≠ td.RefreshUUID)
    (hat0 : 0 < timeUnix td.AccessExpires - now)
    (hat : timeUnix td.AccessExpires - now ≤ maxInt64)
    (hrt0 : 0 < timeUnix td.RefreshExpires - now)
    (hrt : timeUnix td.RefreshExpires - now ≤ maxInt64)
    (hok : (CreateAuth l1 l2 s now td).1 = none) :
    (CreateAuth l1 l2 s now td).2 td.AccessUUID
      = some ⟨FormatUint td.userID,
          some (max Millisecond ((timeUnix td.AccessExpires - now) / Millisecond * Millisecond))⟩ ∧
    (CreateAuth l1 l2 s now td).2 td.RefreshUUID
      = some ⟨FormatUint td.userID,
          some (max Millisecond ((timeUnix td.RefreshExpires - now) / Millisecond * Millisecond))⟩ ∧
    (∀ k, k ≠ td.AccessUUID → k ≠ td.RefreshUUID → (CreateAuth l1 l2 s now td).2 k = s k) ∧
    (Millisecond ≤ timeUnix td.AccessExpires - now →
      now + max Millisecond ((timeUnix td.AccessExpires - now) / Millisecond * Millisecond)
        ≤ timeUnix td.AccessExpires ∧
      timeUnix td.AccessExpires - Millisecond
        < now + max Millisecond ((timeUnix td.AccessExpires - now) / Millisecond * Millisecond)) ∧
    (Millisecond ≤ timeUnix td.RefreshExpires - now →
      now + max Millisecond ((timeUnix td.RefreshExpires - now) / Millisecond * Millisecond)
        ≤ timeUnix td.RefreshExpires ∧
      timeUnix td.RefreshExpires - Millisecond
        < now + max Millisecond ((timeUnix td.RefreshExpires - now) / Millisecond * Millisecond)) ∧
    ((timeUnix td.AccessExpires - now) % Millisecond = 0 →
      now + max Millisecond ((timeUnix td.AccessExpires - now) / Millisecond * Millisecond)
        = timeUnix td.AccessExpires) ∧
    ((timeUnix td.RefreshExpires - now) % Millisecond = 0 →
      now + max Millisecond ((timeUnix td.RefreshExpires - now) / Millisecond * Millisecond)
        = timeUnix td.RefreshExpires) := by
  obtain ⟨h1, h2⟩ := (CreateAuth_ok_iff l1 l2 s now td).1 hok
  subst h1 h2
  have hatI : isInt64 (timeUnix td.AccessExpires - now) := by
    unfold isInt64 minInt64
    constructor
    · omega
    · exact hat
  have hrtI : isInt64 (timeUnix td.RefreshExpires - now) := by
    unfold isInt64 minInt64
    constructor
    · omega
    · exact hrt
  rw [CreateAuth_up_up, timeSub_exact _ _ hatI, timeSub_exact _ _ hrtI,
    grantedTTL_pos _ _ _ hat0, grantedTTL_pos _ _ _ hrt0]
  refine ⟨?_, ?_, ?_, fun h => lifetime_within_expiry _ _ h,
    fun h => lifetime_within_expiry _ _ h, fun h => lifetime_exact _ _ hat0 h,
    fun h => lifetime_exact _ _ hrt0 h⟩
  · rw [Store.set_other _ _ _ _ _ hkeys, Store.set_same]
  · rw [Store.set_same]
  · intro k hka hkr
    rw [Store.set_other _ _ _ _ _ hkr, Store.set_other _ _ _ _ _ hka]

/-- C8 (witness): the amended statement at the record of principal 42, written
at `now = 0`: lifetimes of 900 s and 86400 s, ending at the signed expiries. -/
theorem C8_CreateAuth_writes_two_records_witness :
    (CreateAuth Link.up Link.up emptyStore 0 demoDetails).2 demoDetails.AccessUUID
      = some ⟨"42", some (900 * Second)⟩ ∧
    (CreateAuth Link.up Link.up emptyStore 0 demoDetails).2 demoDetails.RefreshUUID
      = some ⟨"42", some (86400 * Second)⟩ ∧
    0 + max Millisecond ((timeUnix demoDetails.AccessExpires - 0) / Millisecond * Millisecond)
      = timeUnix demoDetails.AccessExpires :=
  have h := C8_CreateAuth_writes_two_records Link.up Link.up emptyStore 0 demoDetails
    (by decide) (by decide) (by decide) (by decide) (by decide) (by decide)
  ⟨h.1, h.2.1, h.2.2.2.2.2.1 (by decide)⟩

/-- C10 (counterexample): when the first write succeeds and the second never
reaches the store, `CreateAuth` returns an error while the store, empty before,
holds the access session record. -/
theorem C10_counterexample :
    (CreateAuth Link.up Link.down emptyStore 0 demoDetails).1 = some Error.storeUnavailable ∧
    emptyStore demoDetails.AccessUUID = none ∧
    (CreateAuth Link.up Link.down emptyStore 0 demoDetails).2 demoDetails.AccessUUID
      = some ⟨"42", some (900 * Second)⟩ := by
  decide

/-- C10 (amended): `CreateAuth` stops at the first failing write and undoes
nothing.  When it returns an error, one of the two writes failed; no key other
than the two session identifiers has changed; if the first write never reached
the store the store is unchanged; if the first write succeeded and the second
never reached the store, the store is the original one plus the access record,
the refresh key being untouched unless it is the access key. -/
theorem C10_CreateAuth_failure_keeps_earlier_write (l1 l2 : Link) (s : Store) (now : Int)
    (td : TokenDetails) (herr : (CreateAuth l1 l2 s now td).1 ≠ none) :
    (l1 ≠ Link.up ∨ l2 ≠ Link.up) ∧
    (∀ k, k ≠ td.AccessUUID → k ≠ td.RefreshUUID → (CreateAuth l1 l2 s now td).2 k = s k) ∧
    (l1 = Link.down → (CreateAuth l1 l2 s now td).2 = s) ∧
    (l1 = Link.up → l2 = Link.down →
      (CreateAuth l1 l2 s now td).2
        = s.set td.AccessUUID (FormatUint td.userID)
            (grantedTTL s td.AccessUUID (timeSub (timeUnix td.AccessExpires) now))) := by
  refine ⟨?_, ?_, ?_, ?_⟩
  · by_contra hcon
    push_neg at hcon
    exact herr ((CreateAuth_ok_iff l1 l2 s now td).2 hcon)
  · intro k hka hkr
    cases l1 <;> cases l2 <;> simp [CreateAuth, Redis.Set, Store.set, hka, hkr]
  · intro h
    subst h
    simp [CreateAuth, Redis.Set]
  · intro h1 h2
    subst h1 h2
    simp [CreateAuth, Redis.Set]

/-- C10 (witness): the amended statement at the failing second write. -/
theorem C10_CreateAuth_failure_keeps_earlier_write_witness :
    (CreateAuth Link.up Link.down emptyStore 0 demoDetails).2
      = emptyStore.set demoDetails.AccessUUID (FormatUint demoDetails.userID)
          (grantedTTL emptyStore demoDetails.AccessUUID
            (timeSub (timeUnix demoDetails.AccessExpires) 0)) :=
  (C10_CreateAuth_failure_keeps_earlier_write Link.up Link.down emptyStore 0 demoDetails
    (by decide)).2.2.2 rfl rfl

/-! ## Facts about decoding -/

theorem lookup_decodeClaims (p : MapClaims) (k : String) :
    (decodeClaims p).lookup k = (p.lookup k).map decodeValue := by
  induction p with
  | nil => rfl
  | cons kv rest ih =>
    obtain ⟨k', v⟩ := kv
    unfold decodeClaims at ih ⊢
    simp only [List.map_cons, List.lookup_cons]
    cases hk : (k == k')
    · simpa using ih
    · simp

theorem decodeToken_malformed (S : Signer) (text key : String) (now : Int) :
    decodeToken S (TokenString.malformed text) key now = Except.error Error.malformed := by
  simp [decodeToken, Parse]

theorem decodeToken_no_alg (S : Signer) (j : JWS) (key : String) (now : Int)
    (hj : j.alg = none) :
    decodeToken S (TokenString.compact j) key now = Except.error Error.unverifiable := by
  simp [decodeToken, Parse, hj]

theorem decodeToken_unregistered (S : Signer) (j : JWS) (key : String) (now : Int) (alg : String)
    (hj : j.alg = some alg) (hm : GetSigningMethod alg = none) :
    decodeToken S (TokenString.compact j) key now = Except.error Error.unverifiable := by
  simp [decodeToken, Parse, hj, hm]

theorem decodeToken_not_hmac (S : Signer) (j : JWS) (key : String) (now : Int) (alg : String)
    (m : SigningMethod) (hj : j.alg = some alg) (hm : GetSigningMethod alg = some m)
    (hnot : ∀ h, m ≠ SigningMethod.hmac h) :
    decodeToken S (TokenString.compact j) key now
      = Except.error Error.unexpectedSigningMethod := by
  cases m with
  | hmac h => exact absurd rfl (hnot h)
  | rsa h => simp [decodeToken, Parse, hj, hm, keyFunc]
  | rsaPSS h => simp [decodeToken, Parse, hj, hm, keyFunc]
  | ecdsa h => simp [decodeToken, Parse, hj, hm, keyFunc]
  | none => simp [decodeToken, Parse, hj, hm, keyFunc]

theorem decodeToken_hmac (S : Signer) (j : JWS) (key : String) (now : Int) (alg : String)
    (h : Hash) (hj : j.alg = some alg) (hm : GetSigningMethod alg = some (SigningMethod.hmac h)) :
    decodeToken S (TokenString.compact j) key now =
      if (claimsValid (decodeClaims j.payload) now).valid = true ∧ hmacVerify S h key j = true
      then Except.ok (decodeClaims j.payload)
      else Except.error (Error.validation
        { claimsValid (decodeClaims j.payload) now with
          signatureInvalid := !hmacVerify S h key j }) := by
  unfold decodeToken Parse
  simp only [hj, hm, keyFunc, SigningMethod.Verify]
  cases hv : hmacVerify S h key j
  · simp [ValidationError.valid]
  · cases hc : (claimsValid (decodeClaims j.payload) now).valid
    · simp [hc]
      rfl
    · simp [hc]

theorem decodeToken_ok_claims (S : Signer) (tok : TokenString) (key : String) (now : Int)
    (c : MapClaims) (h : decodeToken S tok key now = Except.ok c) :
    ∃ j, tok = TokenString.compact j ∧ c = decodeClaims j.payload := by
  cases tok with
  | malformed text => rw [decodeToken_malformed] at h; cases h
  | compact j =>
    refine ⟨j, rfl, ?_⟩
    cases hj : j.alg with
    | none => rw [decodeToken_no_alg S j key now hj] at h; cases h
    | some alg =>
      cases hm : GetSigningMethod alg with
      | none => rw [decodeToken_unregistered S j key now alg hj hm] at h; cases h
      | some m =>
        cases m with
        | hmac hh =>
          rw [decodeToken_hmac S j key now alg hh hj hm] at h
          split_ifs at h
          injection h with h
          exact h.symm
        | rsa hh =>
          rw [decodeToken_not_hmac S j key now alg _ hj hm (by intro x hx; cases hx)] at h
          cases h
        | rsaPSS hh =>
          rw [decodeToken_not_hmac S j key now alg _ hj hm (by intro x hx; cases hx)] at h
          cases h
        | ecdsa hh =>
          rw [decodeToken_not_hmac S j key now alg _ hj hm (by intro x hx; cases hx)] at h
          cases h
        | none =>
          rw [decodeToken_not_hmac S j key now alg _ hj hm (by intro x hx; cases hx)] at h
          cases h

theorem ReadAuth_of_decode_error (S : Signer) (ar : AuthReader) (l : Link) (s : Store)
    (now : Int) (tok : TokenString) (e : Error)
    (h : decodeToken S tok ar.ATSecret now = Except.error e) :
    ReadAuth S ar l s now tok = Except.error e := by
  simp [ReadAuth, h]

theorem ReadAuth_of_decode_ok (S : Signer) (ar : AuthReader) (l : Link) (s : Store)
    (now : Int) (tok : TokenString) (c : MapClaims) (u : String)
    (h : decodeToken S tok ar.ATSecret now = Except.ok c)
    (hu : c.lookup "access_uuid" = some (Value.str u)) :
    ReadAuth S ar l s now tok =
      match Redis.Get l s u with
      | some err => Except.error err
      | none => Except.ok c := by
  simp [ReadAuth, h, hu]

theorem ReadAuth_ok (S : Signer) (ar : AuthReader) (l : Link) (s : Store) (now : Int)
    (tok : TokenString) (c : MapClaims) (h : ReadAuth S ar l s now tok = Except.ok c) :
    decodeToken S tok ar.ATSecret now = Except.ok c ∧
    ∃ u, c.lookup "access_uuid" = some (Value.str u) ∧ l = Link.up ∧ s u ≠ none := by
  unfold ReadAuth at h
  cases hd : decodeToken S tok ar.ATSecret now with
  | error e => rw [hd] at h; cases h
  | ok c' =>
    rw [hd] at h
    simp only at h
    split at h
    · rename_i u hu
      split at h
      · cases h
      · rename_i hg
        injection h with h
        subst h
        refine ⟨rfl, u, hu, ?_, ?_⟩
        · cases l <;> simp [Redis.Get] at hg
          rfl
        · cases l <;> simp [Redis.Get] at hg
          intro hs
          rw [hs] at hg
          simp at hg
    · cases h

theorem Redis.Get_absent (l : Link) (s : Store) (u : String) (h : s u = none) :
    ∃ e, Redis.Get l s u = some e ∧ (l = Link.up → e = Error.redisNil) := by
  cases l <;> simp [Redis.Get, h]

/-! ## Revocation -/

/-- C3: if `ReadAuth` accepts a token with claim set `c` and `DeleteAuth c` then
succeeds, the claim set names a session `u` that was in the store and is no
longer; every later `ReadAuth` of the same token on the resulting store fails,
whatever the time and the state of the network, and fails with the "key does not
exist" error of the lookup whenever the token still decodes and the lookup is
answered; every key other than `u` maps to what it mapped to before. -/
theorem C3_revoked_session_fails_validation (S : Signer) (ar : AuthReader) (l lD : Link)
    (s : Store) (now : Int) (tok : TokenString) (c : MapClaims) (n : Nat)
    (hread : ReadAuth S ar l s now tok = Except.ok c)
    (hdel : (DeleteAuth lD s c).1 = Except.ok n) :
    (∃ u, c.lookup "access_uuid" = some (Value.str u) ∧ s u ≠ none ∧
      (DeleteAuth lD s c).2 u = none ∧
      ∀ k, k ≠ u → (DeleteAuth lD s c).2 k = s k) ∧
    (∀ l2 now2, ∃ e, ReadAuth S ar l2 (DeleteAuth lD s c).2 now2 tok = Except.error e) ∧
    (∀ now2 c2, decodeToken S tok ar.ATSecret now2 = Except.ok c2 →
      ReadAuth S ar Link.up (DeleteAuth lD s c).2 now2 tok = Except.error Error.redisNil) := by
  obtain ⟨hdec, u, hu, -, hsu⟩ := ReadAuth_ok S ar l s now tok c hread
  obtain ⟨j, htok, hc⟩ := decodeToken_ok_claims S tok ar.ATSecret now c hdec
  have hup : lD = Link.up := by
    cases lD <;> simp [DeleteAuth, hu, Redis.Del] at hdel
    rfl
  subst hup
  have hstore : (DeleteAuth Link.up s c).2 = s.del u := by
    simp [DeleteAuth, hu, Redis.Del]
  rw [hstore]
  have hsame : ∀ now2 c2, decodeToken S tok ar.ATSecret now2 = Except.ok c2 → c2 = c := by
    intro now2 c2 h2
    obtain ⟨j2, htok2, hc2⟩ := decodeToken_ok_claims S tok ar.ATSecret now2 c2 h2
    rw [htok] at htok2
    injection htok2 with hj
    rw [hc2, hc, hj]
  refine ⟨⟨u, hu, hsu, Store.del_same s u, fun k hk => Store.del_other s u k hk⟩, ?_, ?_⟩
  · intro l2 now2
    cases hd : decodeToken S tok ar.ATSecret now2 with
    | error e => exact ⟨e, ReadAuth_of_decode_error S ar l2 _ now2 tok e hd⟩
    | ok c2 =>
      have := hsame now2 c2 hd
      subst this
      obtain ⟨e, he, -⟩ := Redis.Get_absent l2 (s.del u) u (Store.del_same s u)
      refine ⟨e, ?_⟩
      rw [ReadAuth_of_decode_ok S ar l2 _ now2 tok c2 u hd hu, he]
  · intro now2 c2 hd
    have := hsame now2 c2 hd
    subst this
    obtain ⟨e, he, hnil⟩ := Redis.Get_absent Link.up (s.del u) u (Store.del_same s u)
    rw [ReadAuth_of_decode_ok S ar Link.up _ now2 tok c2 u hd hu, he, hnil rfl]

/-- C3 (witness): a token for principal 42 MAC'd under the access secret, read at
second 100 against a store holding its session, then revoked. -/
theorem C3_revoked_session_fails_validation_witness :
    ReadAuth demoSigner demoReader Link.up
        (DeleteAuth Link.up demoStore (decodeClaims (demoClaims 900))).2 (100 * Second)
        (demoToken "HS256" Hash.sha256 "at-secret" (demoClaims 900))
      = Except.error Error.redisNil :=
  (C3_revoked_session_fails_validation demoSigner demoReader Link.up Link.up demoStore
    (100 * Second) (demoToken "HS256" Hash.sha256 "at-secret" (demoClaims 900))
    (decodeClaims (demoClaims 900)) 1 (by decide) (by decide)).2.2 (100 * Second)
    (decodeClaims (demoClaims 900)) (by decide)

theorem decodeToken_error_or_hmac (S : Signer) (j : JWS) (key : String) (now : Int) :
    (∃ e, decodeToken S (TokenString.compact j) key now = Except.error e) ∨
    ∃ alg h, j.alg = some alg ∧ GetSigningMethod alg = some (SigningMethod.hmac h) := by
  cases hj : j.alg with
  | none => exact Or.inl ⟨_, decodeToken_no_alg S j key now hj⟩
  | some alg =>
    cases hm : GetSigningMethod alg with
    | none => exact Or.inl ⟨_, decodeToken_unregistered S j key now alg hj hm⟩
    | some m =>
      cases m with
      | hmac hh => exact Or.inr ⟨alg, hh, rfl, hm⟩
      | rsa hh =>
        exact Or.inl ⟨_, decodeToken_not_hmac S j key now alg _ hj hm (by intro x hx; cases hx)⟩
      | rsaPSS hh =>
        exact Or.inl ⟨_, decodeToken_not_hmac S j key now alg _ hj hm (by intro x hx; cases hx)⟩
      | ecdsa hh =>
        exact Or.inl ⟨_, decodeToken_not_hmac S j key now alg _ hj hm (by intro x hx; cases hx)⟩
      | none =>
        exact Or.inl ⟨_, decodeToken_not_hmac S j key now alg _ hj hm (by intro x hx; cases hx)⟩

theorem GetSigningMethod_hmac (alg : String) (h : Hash)
    (hm : GetSigningMethod alg = some (SigningMethod.hmac h)) :
    alg = "HS256" ∨ alg = "HS384" ∨ alg = "HS512" := by
  unfold GetSigningMethod at hm
  by_cases h1 : alg = "HS256"
  · exact Or.inl h1
  by_cases h2 : alg = "HS384"
  · exact Or.inr (Or.inl h2)
  by_cases h3 : alg = "HS512"
  · exact Or.inr (Or.inr h3)
  exfalso
  rw [if_neg h1, if_neg h2, if_neg h3] at hm
  repeat' split at hm
  all_goals first | (injection hm with hc; injection hc) | (injection hm)

theorem roundF64Nat_exact (n : Nat) (h : n ≤ 2 ^ 53) : roundF64Nat n = n := by
  rcases Nat.lt_or_eq_of_le h with hlt | heq
  · have : excessBits n n = 0 := by
      cases n with
      | zero => rfl
      | succ m =>
        unfold excessBits
        rw [if_pos hlt]
    simp [roundF64Nat, this]
  · subst heq
    decide

theorem roundF64_exact (e : Int) (hlo : -(2 ^ 53) ≤ e) (hhi : e ≤ 2 ^ 53) : roundF64 e = e := by
  cases e with
  | ofNat n =>
    have hn : n ≤ 2 ^ 53 := by
      have : (n : Int) ≤ 2 ^ 53 := hhi
      exact_mod_cast this
    simp [roundF64, roundF64Nat_exact n hn]
  | negSucc n =>
    have hn : n + 1 ≤ 2 ^ 53 := by
      have : -(2 ^ 53 : Int) ≤ Int.negSucc n := hlo
      rw [Int.negSucc_eq] at this
      omega
    simp only [roundF64, roundF64Nat_exact (n + 1) hn]
    rw [Int.negSucc_eq]
    simp

theorem decodeToken_signed (S : Signer) (alg : String) (h : Hash) (payload : MapClaims)
    (key : String) (now : Int)
    (hm : GetSigningMethod alg = some (SigningMethod.hmac h))
    (hvalid : (claimsValid (decodeClaims payload) now).valid = true) :
    decodeToken S
        (TokenString.compact
          { alg := some alg, payload := payload,
            signature := some (S.hmac h key (some alg, payload)) }) key now
      = Except.ok (decodeClaims payload) := by
  rw [decodeToken_hmac S _ key now alg h rfl hm]
  simp [hvalid, hmacVerify]

/-! ## The signing algorithm -/

/-- C5 (counterexample): a token whose header names HS384, MAC'd with that
algorithm under the access secret, is decoded by `decodeToken` and accepted by
`ReadAuth`. -/
theorem C5_counterexample :
    decodeToken demoSigner (demoToken "HS384" Hash.sha384 "at-secret" (demoClaims 900))
        "at-secret" (100 * Second)
      = Except.ok (decodeClaims (demoClaims 900)) ∧
    ReadAuth demoSigner demoReader Link.up demoStore (100 * Second)
        (demoToken "HS384" Hash.sha384 "at-secret" (demoClaims 900))
      = Except.ok (decodeClaims (demoClaims 900)) := by
  decide

/-- C5 (amended): `decodeToken`, and hence `ReadAuth`, rejects every token whose
header algorithm is none of HS256, HS384, HS512, whatever its signature, the key
and the time. -/
theorem C5_non_HMAC_algorithm_rejected (S : Signer) (j : JWS) (now : Int)
    (h256 : j.alg ≠ some "HS256") (h384 : j.alg ≠ some "HS384")
    (h512 : j.alg ≠ some "HS512") :
    (∀ key, ∃ e, decodeToken S (TokenString.compact j) key now = Except.error e) ∧
    (∀ ar l s, ∃ e, ReadAuth S ar l s now (TokenString.compact j) = Except.error e) := by
  have hdec : ∀ key, ∃ e, decodeToken S (TokenString.compact j) key now = Except.error e := by
    intro key
    rcases decodeToken_error_or_hmac S j key now with herr | ⟨alg, h, hj, hm⟩
    · exact herr
    · exfalso
      rcases GetSigningMethod_hmac alg h hm with ha | ha | ha
      · exact h256 (by rw [hj, ha])
      · exact h384 (by rw [hj, ha])
      · exact h512 (by rw [hj, ha])
  refine ⟨hdec, ?_⟩
  intro ar l s
  obtain ⟨e, he⟩ := hdec ar.ATSecret
  exact ⟨e, ReadAuth_of_decode_error S ar l s now _ e he⟩

/-- C5 (witness): a token naming RS256 and carrying the HMAC of the access secret
is rejected. -/
theorem C5_non_HMAC_algorithm_rejected_witness :
    ∃ e, decodeToken demoSigner (demoToken "RS256" Hash.sha256 "at-secret" (demoClaims 900))
      "at-secret" (100 * Second) = Except.error e :=
  (C5_non_HMAC_algorithm_rejected demoSigner
    { alg := some "RS256", payload := demoClaims 900,
      signature := some (demoSigner.hmac Hash.sha256 "at-secret" (some "RS256", demoClaims 900)) }
    (100 * Second) (by decide) (by decide) (by decide)).1 "at-secret"

/-! ## Expiry -/

/-- C9 (counterexample): a token MAC'd under the access secret whose `exp` equals
the current second (the clock reads 900 s and 5 ns, `exp` is 900) is accepted
by `ReadAuth` when the store holds its session. -/
theorem C9_counterexample :
    Unix (900 * Second + 5) = 900 ∧
    ReadAuth demoSigner demoReader Link.up demoStore (900 * Second + 5)
        (demoToken "HS256" Hash.sha256 "at-secret" (demoClaims 900))
      = Except.ok (decodeClaims (demoClaims 900)) := by
  decide

/-- C9 (amended): a token whose `exp` claim is a non-zero number of seconds,
exactly representable as a float64, strictly before the current second is
rejected by `decodeToken` and by `ReadAuth`, for every signature, store and
network state. -/
theorem C9_expired_token_rejected (S : Signer) (ar : AuthReader) (l : Link) (s : Store)
    (now : Int) (j : JWS) (e : Int)
    (hexp : j.payload.lookup "exp" = some (Value.num e))
    (hnz : e ≠ 0) (hlo : -(2 ^ 53) ≤ e) (hhi : e ≤ 2 ^ 53)
    (hpast : e < Unix now) :
    (∃ err, decodeToken S (TokenString.compact j) ar.ATSecret now = Except.error err) ∧
    (∃ err, ReadAuth S ar l s now (TokenString.compact j) = Except.error err) := by
  have hdec : ∃ err, decodeToken S (TokenString.compact j) ar.ATSecret now
      = Except.error err := by
    rcases decodeToken_error_or_hmac S j ar.ATSecret now with herr | ⟨alg, h, hj, hm⟩
    · exact herr
    · have hlook : (decodeClaims j.payload).lookup "exp" = some (Value.num e) := by
        rw [lookup_decodeClaims, hexp]
        simp [decodeValue, roundF64_exact e hlo hhi]
      have hver : VerifyExpiresAt (decodeClaims j.payload) (Unix now) = false := by
        simp [VerifyExpiresAt, hlook, hnz, hpast]
      have hval : (claimsValid (decodeClaims j.payload) now).valid = false := by
        simp [ValidationError.valid, claimsValid, hver]
      rw [decodeToken_hmac S j ar.ATSecret now alg h hj hm]
      simp [hval]
  refine ⟨hdec, ?_⟩
  obtain ⟨err, he⟩ := hdec
  exact ⟨err, ReadAuth_of_decode_error S ar l s now _ err he⟩

/-- C9 (witness): the token of the counterexample, one second later. -/
theorem C9_expired_token_rejected_witness :
    ∃ err, ReadAuth demoSigner demoReader Link.up demoStore (901 * Second)
      (demoToken "HS256" Hash.sha256 "at-secret" (demoClaims 900)) = Except.error err :=
  (C9_expired_token_rejected demoSigner demoReader Link.up demoStore (901 * Second)
    { alg := some "HS256", payload := demoClaims 900,
      signature := some (demoSigner.hmac Hash.sha256 "at-secret" (some "HS256", demoClaims 900)) }
    900 (by decide) (by decide) (by decide) (by decide) (by decide)).2

/-! ## Round trip -/

theorem UUID.String_ne_empty (u : Nat) : UUID.String u ≠ "" := by
  intro h
  have := congrArg String.data h
  simp [UUID.String] at this

/-- C4 (counterexample): issuing for principal `2 ^ 53 + 1`, persisting and
validating at once succeeds, but the `user_id` of the returned claim set is
`2 ^ 53`. -/
theorem C4_counterexample :
    CreateToken demoSigner demoWriter (100 * Second) (100 * Second) 1 2 9007199254740993
      = Except.ok bigDetails ∧
    (CreateAuth Link.up Link.up emptyStore (100 * Second) bigDetails).1 = none ∧
    ReadAuth demoSigner demoReader Link.up
        (CreateAuth Link.up Link.up emptyStore (100 * Second) bigDetails).2 (100 * Second)
        bigDetails.AccessToken
      = Except.ok [("access_uuid", Value.str "00000000-0000-0000-0000-000000000001"),
          ("user_id", Value.num 9007199254740992), ("exp", Value.num 1000)] := by
  decide

theorem expiry_bounds (now d : Int) (hnow : isInt64 now) (hd : isInt64 d) (hpos : 0 < d) :
    Unix now ≤ Unix (timeAdd now d) ∧
    -(2 ^ 53) ≤ Unix (timeAdd now d) ∧ Unix (timeAdd now d) ≤ 2 ^ 53 := by
  unfold isInt64 minInt64 maxInt64 at hnow hd
  unfold Unix timeAdd Second
  refine ⟨?_, ?_, ?_⟩ <;> omega

theorem CreateToken_ok (S : Signer) (aw : AuthWriter) (nowA nowR : Int) (uuidA uuidR P : Nat) :
    ∃ td, CreateToken S aw nowA nowR uuidA uuidR P = Except.ok td ∧
      td.userID = P ∧
      td.AccessUUID = UUID.String uuidA ∧
      td.AccessExpires = Unix (timeAdd nowA aw.ATExpiry) ∧
      td.RefreshUUID = UUID.String uuidR ∧
      td.RefreshExpires = Unix (timeAdd nowR aw.RTExpiry) ∧
      td.AccessToken = TokenString.compact
        { alg := some "HS256",
          payload := [("access_uuid", Value.str (UUID.String uuidA)), ("user_id", Value.num P),
            ("exp", Value.num (Unix (timeAdd nowA aw.ATExpiry)))],
          signature := some (S.hmac Hash.sha256 aw.ATSecret (some "HS256",
            [("access_uuid", Value.str (UUID.String uuidA)), ("user_id", Value.num P),
              ("exp", Value.num (Unix (timeAdd nowA aw.ATExpiry)))])) } := by
  simp [CreateToken, SignedString, SigningMethodHS256, SigningMethod.Alg]

/-- C4 (amended): with reader and writer sharing the access secret, a positive
access TTL and a clock within the int64 nanosecond range, `CreateToken` for any
principal `P`, then `CreateAuth`, then `ReadAuth` of the returned access token at
the instant of issuance all succeed; the returned claim set carries the issued
session identifier, a non-empty string, under `access_uuid`, and under `user_id`
the float64 nearest to `P`, which is `P` itself whenever `P ≤ 2 ^ 53`. -/
theorem C4_issue_persist_validate (S : Signer) (aw : AuthWriter) (ar : AuthReader) (s : Store)
    (now nowR nowC : Int) (uuidA uuidR P : Nat)
    (hsec : ar.ATSecret = aw.ATSecret) (httl : 0 < aw.ATExpiry)
    (hd : isInt64 aw.ATExpiry) (hnow : isInt64 now) :
    ∃ td, CreateToken S aw now nowR uuidA uuidR P = Except.ok td ∧
      td.userID = P ∧
      (CreateAuth Link.up Link.up s nowC td).1 = none ∧
      ∃ c, ReadAuth S ar Link.up (CreateAuth Link.up Link.up s nowC td).2 now td.AccessToken
          = Except.ok c ∧
        c.lookup "access_uuid" = some (Value.str td.AccessUUID) ∧
        td.AccessUUID ≠ "" ∧
        c.lookup "user_id" = some (Value.num (roundF64 P)) ∧
        (P ≤ 2 ^ 53 → c.lookup "user_id" = some (Value.num P)) := by
  obtain ⟨hle, hlo, hhi⟩ := expiry_bounds now aw.ATExpiry hnow hd httl
  obtain ⟨td, hct, huid, hau, hae, hru, hre, htok⟩ := CreateToken_ok S aw now nowR uuidA uuidR P
  generalize hexp : Unix (timeAdd now aw.ATExpiry) = exp at hle hlo hhi hae htok
  obtain ⟨j, htok, hjalg, hjp, hjs⟩ : ∃ j : JWS, td.AccessToken = TokenString.compact j ∧
      j.alg = some "HS256" ∧
      j.payload = [("access_uuid", Value.str (UUID.String uuidA)), ("user_id", Value.num P),
        ("exp", Value.num exp)] ∧
      j.signature = some (S.hmac Hash.sha256 aw.ATSecret (j.alg, j.payload)) :=
    ⟨_, htok, rfl, rfl, rfl⟩
  refine ⟨td, hct, huid, (CreateAuth_ok_iff _ _ _ _ _).2 ⟨rfl, rfl⟩, ?_⟩
  have hm : GetSigningMethod "HS256" = some (SigningMethod.hmac Hash.sha256) := by decide
  have hver : hmacVerify S Hash.sha256 ar.ATSecret j = true := by
    simp [hmacVerify, hjs, hsec]
  have hexpL : (decodeClaims j.payload).lookup "exp" = some (Value.num exp) := by
    rw [lookup_decodeClaims, hjp]
    have : List.lookup "exp" [("access_uuid", Value.str (UUID.String uuidA)),
        ("user_id", Value.num P), ("exp", Value.num exp)] = some (Value.num exp) := by
      rfl
    rw [this]
    simp [decodeValue, roundF64_exact exp hlo hhi]
  have hiat : (decodeClaims j.payload).lookup "iat" = none := by
    rw [lookup_decodeClaims, hjp]
    have : List.lookup "iat" [("access_uuid", Value.str (UUID.String uuidA)),
        ("user_id", Value.num P), ("exp", Value.num exp)] = none := by
      rfl
    rw [this]
    rfl
  have hnbf : (decodeClaims j.payload).lookup "nbf" = none := by
    rw [lookup_decodeClaims, hjp]
    have : List.lookup "nbf" [("access_uuid", Value.str (UUID.String uuidA)),
        ("user_id", Value.num P), ("exp", Value.num exp)] = none := by
      rfl
    rw [this]
    rfl
  have hval : (claimsValid (decodeClaims j.payload) now).valid = true := by
    simp [ValidationError.valid, claimsValid, VerifyExpiresAt, VerifyIssuedAt, VerifyNotBefore,
      hexpL, hiat, hnbf, hle]
  have hdec : decodeToken S (TokenString.compact j) ar.ATSecret now
      = Except.ok (decodeClaims j.payload) := by
    rw [decodeToken_hmac S j ar.ATSecret now "HS256" Hash.sha256 hjalg hm]
    simp [hval, hver]
  have huuid : (decodeClaims j.payload).lookup "access_uuid"
      = some (Value.str (UUID.String uuidA)) := by
    rw [lookup_decodeClaims, hjp]
    have : List.lookup "access_uuid" [("access_uuid", Value.str (UUID.String uuidA)),
        ("user_id", Value.num P), ("exp", Value.num exp)]
        = some (Value.str (UUID.String uuidA)) := by
      simp [List.lookup]
    rw [this]
    rfl
  have huser : (decodeClaims j.payload).lookup "user_id" = some (Value.num (roundF64 P)) := by
    rw [lookup_decodeClaims, hjp]
    have : List.lookup "user_id" [("access_uuid", Value.str (UUID.String uuidA)),
        ("user_id", Value.num P), ("exp", Value.num exp)] = some (Value.num P) := by
      rfl
    rw [this]
    rfl
  have hget : Redis.Get Link.up (CreateAuth Link.up Link.up s nowC td).2 (UUID.String uuidA)
      = none := by
    rw [CreateAuth_up_up, hau, hru]
    by_cases hk : UUID.String uuidA = UUID.String uuidR
    · simp [Redis.Get, Store.set, hk]
    · simp [Redis.Get, Store.set, hk]
  refine ⟨decodeClaims j.payload, ?_, ?_, ?_, huser, ?_⟩
  · rw [htok, ReadAuth_of_decode_ok S ar Link.up _ now _ _ _ hdec huuid, hget]
  · rw [hau]
    exact huuid
  · rw [hau]
    exact UUID.String_ne_empty uuidA
  · intro hP
    rw [huser, roundF64_exact P (by omega) (by exact_mod_cast hP)]

/-- C4 (witness): principal 42 issued, persisted and validated at second 100. -/
theorem C4_issue_persist_validate_witness :
    ∃ td, CreateToken demoSigner demoWriter (100 * Second) (100 * Second) 1 2 42 = Except.ok td ∧
      td.userID = 42 ∧
      (CreateAuth Link.up Link.up emptyStore (100 * Second) td).1 = none ∧
      ∃ c, ReadAuth demoSigner demoReader Link.up
            (CreateAuth Link.up Link.up emptyStore (100 * Second) td).2 (100 * Second)
            td.AccessToken = Except.ok c ∧
        c.lookup "access_uuid" = some (Value.str td.AccessUUID) ∧
        td.AccessUUID ≠ "" ∧
        c.lookup "user_id" = some (Value.num (roundF64 (42 : Nat))) ∧
        ((42 : Nat) ≤ 2 ^ 53 → c.lookup "user_id" = some (Value.num (42 : Nat))) :=
  C4_issue_persist_validate demoSigner demoWriter demoReader emptyStore (100 * Second)
    (100 * Second) (100 * Second) 1 2 42 (by decide) (by decide) (by decide) (by decide)

/-! ## The authentication middleware -/

theorem matchHere_some (s cap : List Char) (h : matchHere s = some cap) :
    s.take 7 = bearerLit ∧ ∃ c, (s.drop 7).head? = some c ∧ c ≠ '\n' := by
  unfold matchHere at h
  split at h
  · rename_i hp
    have hpre : bearerLit <+: s := List.isPrefixOf_iff_prefix.1 hp
    have htake : s.take 7 = bearerLit := by
      have := List.prefix_iff_eq_take.1 hpre
      exact this.symm
    refine ⟨htake, ?_⟩
    have hlen : bearerLit.length = 7 := rfl
    rw [hlen] at h
    cases hd : s.drop 7 with
    | nil => rw [hd] at h; simp at h
    | cons x xs =>
      rw [hd] at h
      by_cases hx : x = '\n'
      · subst hx
        simp at h
      · exact ⟨x, rfl, hx⟩
  · cases h

theorem findSubmatch_nonempty (s : List Char) (h : findSubmatch s ≠ []) :
    ∃ i, i < s.length ∧ (s.drop i).take 7 = bearerLit ∧
      ∃ c, (s.drop (i + 7)).head? = some c ∧ c ≠ '\n' := by
  induction s with
  | nil => exact absurd rfl h
  | cons c cs ih =>
    unfold findSubmatch at h
    cases hm : matchHere (c :: cs) with
    | some cap =>
      obtain ⟨h1, x, h2, h3⟩ := matchHere_some (c :: cs) cap hm
      refine ⟨0, by simp, ?_, x, ?_, h3⟩
      · simpa using h1
      · simpa using h2
    | none =>
      rw [hm] at h
      obtain ⟨i, hi, h1, x, h2, h3⟩ := ih h
      refine ⟨i + 1, by simpa using hi, ?_, x, ?_, h3⟩
      · simpa using h1
      · have : i + 1 + 7 = (i + 7) + 1 := by omega
        rw [this]
        simpa using h2

/-- C6 (counterexample): the header `Basic Bearer dG9r`, which has another scheme
before `Bearer `, is not aborted: its credential is decoded, handed to
`ReadAuth`, and the claims are attached to the request. -/
theorem C6_counterexample :
    MakeHandler demoSigner demoReader demoText Link.up demoStore (100 * Second)
        "Basic Bearer dG9r"
      = { aborted := none, claims := some (decodeClaims (demoClaims 900)),
          presented := some [116, 111, 107] } := by
  decide

/-- C6 (amended): when no position of the header holds `Bearer ` followed by a
character other than a line feed, the handler aborts with the unauthorized
status, sets no claims and hands nothing to `ReadAuth`. -/
theorem C6_header_without_bearer_aborts (S : Signer) (ar : AuthReader)
    (asToken : List Nat → TokenString) (l : Link) (s : Store) (now : Int) (authzHeader : String)
    (h : ∀ i, i < authzHeader.toList.length →
      (authzHeader.toList.drop i).take 7 = bearerLit →
      (authzHeader.toList.drop (i + 7)).head? = none ∨
      (authzHeader.toList.drop (i + 7)).head? = some '\n') :
    MakeHandler S ar asToken l s now authzHeader
      = { aborted := some StatusUnauthorized, claims := none, presented := none } := by
  have hnil : authzSplit.FindStringSubmatch authzHeader = [] := by
    unfold authzSplit.FindStringSubmatch
    by_contra hne
    obtain ⟨i, hi, h1, c, h2, h3⟩ := findSubmatch_nonempty _ hne
    rcases h i hi h1 with h4 | h4
    · rw [h4] at h2
      cases h2
    · rw [h4] at h2
      injection h2 with h2
      exact h3 h2.symm
  unfold MakeHandler
  rw [hnil]

/-- C6 (witness): the header `Basic dG9r`. -/
theorem C6_header_without_bearer_aborts_witness :
    MakeHandler demoSigner demoReader demoText Link.up demoStore (100 * Second) "Basic dG9r"
      = { aborted := some StatusUnauthorized, claims := none, presented := none } :=
  C6_header_without_bearer_aborts demoSigner demoReader demoText Link.up demoStore
    (100 * Second) "Basic dG9r" (by decide)

/-- C7 (counterexample): with a well-formed bearer credential and the session in
the store, a failing store call makes `ReadAuth` return the store error, and the
handler answers exactly as it does for a missing session: aborted with the
unauthorized status. -/
theorem C7_counterexample :
    ReadAuth demoSigner demoReader Link.down demoStore (100 * Second) (demoText [116, 111, 107])
      = Except.error Error.storeUnavailable ∧
    ReadAuth demoSigner demoReader Link.up emptyStore (100 * Second) (demoText [116, 111, 107])
      = Except.error Error.redisNil ∧
    MakeHandler demoSigner demoReader demoText Link.down demoStore (100 * Second) "Bearer dG9r"
      = { aborted := some 401, claims := none, presented := some [116, 111, 107] } ∧
    MakeHandler demoSigner demoReader demoText Link.up emptyStore (100 * Second) "Bearer dG9r"
      = { aborted := some 401, claims := none, presented := some [116, 111, 107] } := by
  decide

/-- C7 (amended): for a request whose bearer credential decodes, whatever error
`ReadAuth` returns, a store failure included, the handler aborts with the
unauthorized status and sets no claims; the handler never aborts with any other
status. -/
theorem C7_ReadAuth_failure_is_unauthorized (S : Signer) (ar : AuthReader)
    (asToken : List Nat → TokenString) (l : Link) (s : Store) (now : Int) (authzHeader : String)
    (whole credential : String) (token : List Nat) (e : Error)
    (hsplit : authzSplit.FindStringSubmatch authzHeader = [whole, credential])
    (hdec : DecodeString credential = some token)
    (hfail : ReadAuth S ar l s now (asToken token) = Except.error e) :
    MakeHandler S ar asToken l s now authzHeader
      = { aborted := some StatusUnauthorized, claims := none, presented := some token } ∧
    ∀ l2 s2 now2 header2 status,
      (MakeHandler S ar asToken l2 s2 now2 header2).aborted = some status →
      status = StatusUnauthorized := by
  constructor
  · unfold MakeHandler
    rw [hsplit]
    simp only [hdec, hfail]
  · intro l2 s2 now2 header2 status hst
    unfold MakeHandler at hst
    split at hst
    · split at hst
      · injection hst with hst
        exact hst.symm
      · split at hst
        · injection hst with hst
          exact hst.symm
        · cases hst
    · injection hst with hst
      exact hst.symm

/-- C7 (witness): the request of the counterexample with the store unreachable. -/
theorem C7_ReadAuth_failure_is_unauthorized_witness :
    MakeHandler demoSigner demoReader demoText Link.down demoStore (100 * Second) "Bearer dG9r"
      = { aborted := some StatusUnauthorized, claims := none,
          presented := some [116, 111, 107] } :=
  (C7_ReadAuth_failure_is_unauthorized demoSigner demoReader demoText Link.down demoStore
    (100 * Second) "Bearer dG9r" "Bearer dG9r" "dG9r" [116, 111, 107] Error.storeUnavailable
    (by decide) (by decide) (by decide)).1

end Auth
